import Mathlib

/-!
Verification of the pybench microbenchmark harness.

The definitions below are a shallow embedding of the Python sources:

* `src/pybench/__init__.py` — the decorator layer: `config`, `skipif`,
  `parametrize`, `metadata`.  Each decorator wraps the target callable with
  `functools.wraps` (which copies the __dict__, hence every previously
  attached `_config` / `_skip` / `_params` / `_setup` / `_metadata`
  attribute survives) and then sets its own attribute(s).  We model the
  attribute dictionary of a benchmark callable as the record `PyFunc`.
* `src/pybench/_bench.py` — the `Config` dataclass, the execution loop of
  `Bench.run` (skip check, config merge via Python dict union, variant
  expansion with an optional setup transform, one timing frame per variant
  holding `repeat` raw samples), the aggregation joins
  (`join(..., on="function", how="left", validate="m:1")` in polars, which
  validates that the right-hand join keys are unique and fills missing
  matches with nulls), and `Bench.save_results`.

Timing values themselves are not modelled (wall-clock time is not
representable in a shallow embedding); a timing frame records the function
identity, the serialized parameter binding, and how many raw samples
(`repeat` of them) it holds, which is all the claims below depend on.
-/

namespace Pybench

/-! ## Config (dataclass `Config` in `_bench.py`) -/

/-- Embedding of the `Config` dataclass of `_bench.py` (the process-wide
default configuration, loaded from `pyproject.toml` or defaulted).  The
Python field `repeat` is spelled `repeats` here because `repeat` is a
reserved word in Lean. -/
structure Config where
  benchpath : String := "benchmarks"
  repeats : Nat := 30
  number : Nat := 1
  warmups : Nat := 0
  garbage_collection : Bool := false
  partition_by : List String := ["commit"]
deriving DecidableEq, Repr

/-- The default configuration `Config()`. -/
def defaultConfig : Config := {}

/-- Embedding of the `_config` attribute set by the `config` decorator in
`__init__.py`: the dictionary `{"repeat": repeat, ...}` filtered to the
keys whose value is not `None`, i.e. exactly the explicitly supplied
fields.  A field that was not supplied is `none` here. -/
structure ConfigOverride where
  repeats : Option Nat := none
  number : Option Nat := none
  warmups : Option Nat := none
  garbage_collection : Option Bool := none
deriving DecidableEq, Repr

/-- Embedding of `self.config.__dict__ | func._config` in `Bench.run`
(line 189 of `_bench.py`): Python dict union, where a key present in the
right operand (the override dictionary, which holds only the explicitly
supplied fields) wins, and every other key keeps the default value. -/
def mergeConfig (d : Config) (o : ConfigOverride) : Config :=
  { d with
    repeats := o.repeats.getD d.repeats
    number := o.number.getD d.number
    warmups := o.warmups.getD d.warmups
    garbage_collection := o.garbage_collection.getD d.garbage_collection }

/-! ## Parametrization expansion (`parametrize` in `__init__.py`) -/

/-- Embedding of `itertools.product(*argnames.values())` as used in
`parametrize`: the cartesian product of the value lists, first list
outermost, rightmost list varying fastest. -/
def pyProduct : List (List α) → List (List α)
  | [] => [[]]
  | l :: ls => l.flatMap fun x => (pyProduct ls).map fun t => x :: t

/-- Embedding of `zip(argnames, params, strict=True)`: pairs the names
with the values positionally and fails (returns `none`, for the Python
`ValueError`) when the lengths differ. -/
def zipStrict : List String → List α → Option (List (String × α))
  | [], [] => some []
  | n :: ns, v :: vs => (zipStrict ns vs).map fun r => (n, v) :: r
  | [], _ :: _ => none
  | _ :: _, [] => none

/-- Embedding of the `for params in argvalues` loop of `parametrize` that
builds `kwargs_list`: each value tuple is zipped strictly against the
names; the first arity mismatch raises, aborting the whole expansion. -/
def buildKwargs (ns : List String) : List (List α) → Except String (List (List (String × α)))
  | [] => Except.ok []
  | v :: vs =>
    match zipStrict ns v with
    | none => Except.error "ValueError: zip strict length mismatch"
    | some b => (buildKwargs ns vs).map fun r => b :: r

/-- The first argument of `parametrize`: either a mapping from parameter
name to list of candidate values (insertion order preserved), or an
explicit ordered list of parameter names. -/
inductive ArgNames (α : Type) where
  | dict (m : List (String × List α))
  | names (ns : List String)

/-- Embedding of the body of `parametrize` up to the construction of
`kwargs_list` (lines 44 to 63 of `__init__.py`).  This code runs at the
call site of `parametrize`, before the decorator is returned, hence
before any benchmark function is modified and before any execution:
an `Except.error` result means `parametrize` raised and no decorator was
produced, so the expansion yielded zero bindings. -/
def parametrizeExpand (argnames : ArgNames α) (argvalues : Option (List (List α))) :
    Except String (List (List (String × α))) :=
  match argnames, argvalues with
  | ArgNames.names _, none => Except.error "TypeError"
  | ArgNames.dict m, _ => buildKwargs (m.map Prod.fst) (pyProduct (m.map Prod.snd))
  | ArgNames.names ns, some vs => buildKwargs ns vs

/-- Modelled from the spec: nested iteration over the value lists taken in
declared order (outermost loop over the first list), each complete nest
emitting one combination.  Stated as a fold so that it can be compared
with `pyProduct`, the embedding of `itertools.product`. -/
def nestedIter (ls : List (List α)) : List (List α) :=
  ls.foldr (fun l acc => l.flatMap fun x => acc.map fun t => x :: t) [[]]

/-! ## The decorated callable (attribute dictionary of a benchmark function) -/

/-- The parametrization data attached by the `parametrize` decorator:
`wrapper._params = kwargs_list` and `wrapper._setup = setup` (both are set
together, `setup` possibly `None`). -/
structure ParamSpec (α : Type) where
  kwargs_list : List (List (String × α))
  setup : Option (List (String × α) → List (String × α))

/-- The attribute dictionary of a (possibly decorated) benchmark callable.
`functools.wraps` copies the wrapped __dict__ onto each new wrapper, so
the attributes accumulate across decorators; a field is `none` when the
corresponding attribute was never set (`hasattr` is false). Fields `skip`,
`cfg`, `params`, `tags` stand for the Python attributes `_skip`,
`_config`, (`_params`, `_setup`) and `_metadata`. -/
structure PyFunc (α : Type) where
  name : String
  skip : Option Bool := none
  cfg : Option ConfigOverride := none
  params : Option (ParamSpec α) := none
  tags : List (String × String) := []
  hasTags : Bool := false

/-- Embedding of the `config(repeat, number, warmups, garbage_collection)`
decorator: wraps the callable (copying its attribute dictionary) and sets
`_config` to the explicitly supplied fields. -/
def applyConfig (r n w : Option Nat) (g : Option Bool) (f : PyFunc α) : PyFunc α :=
  { f with cfg := some ⟨r, n, w, g⟩ }

/-- Embedding of the `skipif(condition, reason)` decorator: wraps the
callable and sets `_skip` to the condition (the reason is discarded by the
source). -/
def applySkipif (condition : Bool) (f : PyFunc α) : PyFunc α :=
  { f with skip := some condition }

/-- Embedding of the `parametrize` decorator proper (after the expansion
succeeded): wraps the callable and sets `_params` and `_setup`. -/
def applyParametrize (ps : ParamSpec α) (f : PyFunc α) : PyFunc α :=
  { f with params := some ps }

/-- Embedding of the `metadata(**metadata_kwargs)` decorator: wraps the
callable and sets `_metadata` to the given tag mapping. -/
def applyMetadata (m : List (String × String)) (f : PyFunc α) : PyFunc α :=
  { f with tags := m, hasTags := true }

/-! ## The execution loop of `Bench.run` -/

/-- The effective configuration computed in `Bench.run` for one function:
`self.config.__dict__ | func._config` when the function carries overrides,
a copy of the default otherwise. -/
def effectiveConfig (default : Config) (f : PyFunc α) : Config :=
  match f.cfg with
  | some o => mergeConfig default o
  | none => default

/-- One expanded variant of a benchmark function: the keyword arguments
bound into `functools.partial` (what the callable is invoked with) and the
`_params` attribute stored on the partial (what `json.dumps` serializes
into the `parameters` column; `none` when absent, giving a null). -/
structure Variant (α : Type) where
  callArgs : List (String × α)
  recorded : Option (List (String × α))

/-- Embedding of the variant expansion in `Bench.run` (lines 198 to 209):
with `_params` present each raw binding yields one partial, bound to the
setup-transformed binding when `_setup` is not `None` but always recording
the raw binding in `_params`; without `_params` the function itself is the
single variant and carries no `_params` attribute. -/
def variants (f : PyFunc α) : List (Variant α) :=
  match f.params with
  | none => [⟨[], none⟩]
  | some ps =>
    ps.kwargs_list.map fun p =>
      match ps.setup with
      | none => ⟨p, some p⟩
      | some s => ⟨s p, some p⟩

/-- One timing frame: the LazyFrame appended to `timing_dfs` for one
variant.  It holds the function identity, the serialized raw binding
(`none` is the null for an unparametrized function), and
`sampleCount = repeat` raw samples (`timeit.repeat` returns a list of
`repeat` timings; the times themselves are not modelled). -/
structure TimingFrame (α : Type) where
  function : String
  parameters : Option (List (String × α))
  sampleCount : Nat
deriving DecidableEq

/-- What `Bench.run` accumulates for one non-skipped function: its timing
frames (one per variant), its effective configuration row (for
`configs`), and its tag row (for `per_function_metadata_list`). -/
structure FuncRunOutput (α : Type) where
  funcName : String
  frames : List (TimingFrame α)
  config : Config
  tags : List (String × String)

/-- Embedding of one iteration of the `for func_name, func in tqdm(funcs)`
loop of `Bench.run`: a function whose `_skip` attribute is present and
true is skipped before anything is recorded (`continue`), producing no
output at all; otherwise the effective config is computed, the variants
are expanded, and each variant contributes one timing frame with `repeat`
samples. -/
def runFunc (default : Config) (f : PyFunc α) : Option (FuncRunOutput α) :=
  if f.skip = some true then none
  else
    let config := effectiveConfig default f
    some
      { funcName := f.name
        frames := (variants f).map fun v => ⟨f.name, v.recorded, config.repeats⟩
        config := config
        tags := f.tags }

/-- Association-list lookup, the model of matching a join key against the
right-hand table (and of path lookup in the file-system model). -/
def alookup [DecidableEq κ] (k : κ) : List (κ × β) → Option β
  | [] => none
  | (k2, v) :: r => if k2 = k then some v else alookup k r

/-- Embedding of the polars join
`left.join(right, on=key, how="left", validate="m:1")` used by the
aggregation step of `Bench.run`: the `m:1` validation checks that the
join keys of the right-hand table are unique and raises otherwise; every
left row is kept, and a left key with no match on the right is filled
with nulls (`none`), not rejected. -/
def leftJoinM1 [DecidableEq κ] (left : List (κ × β)) (right : List (κ × γ)) :
    Except String (List (κ × β × Option γ)) :=
  if (right.map Prod.fst).Nodup then
    Except.ok (left.map fun kv => (kv.1, kv.2, alookup kv.1 right))
  else Except.error "join keys did not fulfill m:1 validation"

/-- The functions selected by the keyword filter (`re.match(keyword_regex,
func_name)` when a regex is given; the regex itself is abstracted as a
predicate on the function name). -/
def sessionSelected (kw : Option (String → Bool)) (funcs : List (PyFunc α)) : List (PyFunc α) :=
  funcs.filter fun f =>
    match kw with
    | none => true
    | some p => p f.name

/-- The per-function outputs of a run, in discovery order, skipped
functions contributing nothing. -/
def sessionRan (default : Config) (kw : Option (String → Bool)) (funcs : List (PyFunc α)) :
    List (FuncRunOutput α) :=
  (sessionSelected kw funcs).filterMap (runFunc default)

/-- All timing frames of a run (the `timing_dfs` list). -/
def sessionFrames (default : Config) (kw : Option (String → Bool)) (funcs : List (PyFunc α)) :
    List (TimingFrame α) :=
  (sessionRan default kw funcs).flatMap FuncRunOutput.frames

/-- The total number of raw timing samples produced by a run. -/
def sessionSampleTotal (default : Config) (kw : Option (String → Bool))
    (funcs : List (PyFunc α)) : Nat :=
  ((sessionFrames default kw funcs).map TimingFrame.sampleCount).sum

/-- One aggregated output row: group key (function, parameters), the
joined config columns and the joined tag columns, either possibly null
(`none`) when the left join found no match. -/
abbrev AggRow (α : Type) :=
  String × (Option (List (String × α)) × Option Config) × Option (List (String × String))

/-- The group keys of the group-by on (function, parameters): one key per
distinct pair observed among the timing frames. -/
def sessionKeys [DecidableEq α] (default : Config) (kw : Option (String → Bool))
    (funcs : List (PyFunc α)) : List (String × Option (List (String × α))) :=
  ((sessionFrames default kw funcs).map fun fr => (fr.function, fr.parameters)).dedup

/-- The per-function configuration table (`config_df`), keyed by function
identity. -/
def sessionConfigTable (default : Config) (kw : Option (String → Bool))
    (funcs : List (PyFunc α)) : List (String × Config) :=
  (sessionRan default kw funcs).map fun o => (o.funcName, o.config)

/-- The per-function tag table (`per_function_metadata_df`), keyed by
function identity. -/
def sessionTagTable (default : Config) (kw : Option (String → Bool))
    (funcs : List (PyFunc α)) : List (String × List (String × String)) :=
  (sessionRan default kw funcs).map fun o => (o.funcName, o.tags)

/-- Embedding of `Bench.run` after the per-function loop: the
`if not timing_dfs: raise SystemExit("No benchmarks ran")` guard, then
the group-by on (function, parameters) (modelled by its group keys), then
the two many-to-one left joins of the config table and of the
per-function tag table onto the grouped timing table.  An `Except.error`
result models the raised exception: no aggregation result exists and
nothing can be persisted. -/
def runSession [DecidableEq α] (default : Config) (kw : Option (String → Bool))
    (funcs : List (PyFunc α)) : Except String (List (AggRow α)) :=
  if (sessionFrames default kw funcs).isEmpty then Except.error "No benchmarks ran"
  else
    match leftJoinM1 (sessionKeys default kw funcs) (sessionConfigTable default kw funcs) with
    | Except.error e => Except.error e
    | Except.ok t1 =>
      match leftJoinM1 (t1.map fun r => (r.1, r.2)) (sessionTagTable default kw funcs) with
      | Except.error e => Except.error e
      | Except.ok t2 => Except.ok (t2.map fun r => (r.1, (r.2.1.1, r.2.1.2), r.2.2))

/-! ## `Bench.save_results` and the file-system model -/

/-- A minimal file system: the set of directories that exist and the files
with their contents (the table type is abstract). -/
structure FS (τ : Type) where
  dirs : List (List String)
  files : List (List String × τ)

/-- All prefixes of a path, the directories that
`mkdir(parents=True, exist_ok=True)` guarantees to exist afterwards. -/
def pathPrefixes : List String → List (List String)
  | [] => [[]]
  | s :: p => [] :: (pathPrefixes p).map fun q => s :: q

/-- Embedding of `save_dir.mkdir(parents=True, exist_ok=True)`: every
prefix of the path exists afterwards, existing directories are kept. -/
def mkdirParents (p : List String) (fs : FS τ) : FS τ :=
  { fs with dirs := pathPrefixes p ++ fs.dirs }

/-- Writing a file, overwriting any previous content at that path: the
new entry is prepended and `readFile` takes the first match, so the
previous content at the path is no longer visible. -/
def writeFile (p : List String) (t : τ) (fs : FS τ) : FS τ :=
  { fs with files := (p, t) :: fs.files }

/-- Reading a file. -/
def readFile (p : List String) (fs : FS τ) : Option τ :=
  alookup p fs.files

/-- Embedding of `Bench.save_results`: builds
`benchdir/historical/key1=value1/.../keyn=valuen` from the configured
partition keys in order, each value resolved against the run metadata
(`self._metadata[key]`, modelled as a total map), creates the missing
directories, writes the aggregated table there, then copies that file
over the unpartitioned latest copy `benchdir/results.parquet`
(`shutil.copy` reads the just-written file and overwrites the
destination). -/
def save_results (cfg : Config) (md : String → String) (benchdir : List String)
    (results : τ) (fs : FS τ) : FS τ :=
  let save_dir := (benchdir ++ ["historical"]) ++ cfg.partition_by.map fun k => k ++ "=" ++ md k
  let save_path := save_dir ++ ["results.parquet"]
  let fs1 := mkdirParents save_dir fs
  let fs2 := writeFile save_path results fs1
  match readFile save_path fs2 with
  | some t => writeFile (benchdir ++ ["results.parquet"]) t fs2
  | none => fs2

/-! ## Helper lemmas about the expansion -/

theorem zipStrict_eq_zip :
    ∀ {ns : List String} {vs : List α}, ns.length = vs.length →
      zipStrict ns vs = some (ns.zip vs)
  | [], [], _ => rfl
  | n :: ns, v :: vs, h => by
    simp only [zipStrict, List.zip_cons_cons]
    rw [zipStrict_eq_zip (by simpa using h)]
    rfl

theorem zipStrict_eq_none :
    ∀ {ns : List String} {vs : List α}, ns.length ≠ vs.length →
      zipStrict ns vs = none
  | [], [], h => absurd rfl h
  | [], _ :: _, _ => rfl
  | _ :: _, [], _ => rfl
  | n :: ns, v :: vs, h => by
    simp only [zipStrict]
    rw [zipStrict_eq_none (fun hl => h (by simpa using hl))]
    rfl

theorem buildKwargs_ok {ns : List String} :
    ∀ {vs : List (List α)}, (∀ v ∈ vs, v.length = ns.length) →
      buildKwargs ns vs = Except.ok (vs.map fun v => ns.zip v)
  | [], _ => rfl
  | v :: vs, h => by
    have hv : ns.length = v.length := (h v (List.mem_cons_self v vs)).symm
    simp only [buildKwargs, zipStrict_eq_zip hv,
      buildKwargs_ok fun u hu => h u (List.mem_cons_of_mem v hu), List.map_cons]
    rfl

theorem buildKwargs_error {ns : List String} :
    ∀ {vs : List (List α)}, (∃ v ∈ vs, v.length ≠ ns.length) →
      ∃ e, buildKwargs ns vs = Except.error e
  | [], h => absurd h (by simp)
  | v :: vs, h => by
    by_cases hv : v.length = ns.length
    · have hrest : ∃ u ∈ vs, u.length ≠ ns.length := by
        rcases h with ⟨u, hu, hne⟩
        rcases List.mem_cons.mp hu with rfl | hu2
        · exact absurd hv hne
        · exact ⟨u, hu2, hne⟩
      rcases buildKwargs_error hrest with ⟨e, he⟩
      refine ⟨e, ?_⟩
      simp only [buildKwargs, zipStrict_eq_zip hv.symm, he]
      rfl
    · exact ⟨"ValueError: zip strict length mismatch", by
        simp only [buildKwargs, zipStrict_eq_none fun hl => hv hl.symm]⟩

/-! ## Claims C1, C3, C10 -/

/-- C1: the effective configuration used for a benchmark function is the
process-wide default merged field-by-field with that function's override
set; an explicitly supplied override value wins, a field not supplied to
`config()` keeps the default; in particular with the default
`{repeat=30, number=1, warmups=0}` and override `{repeat=5}` the
effective values are `{repeat=5, number=1, warmups=0}`. -/
theorem effective_config_merge (d : Config) (o : ConfigOverride) (f : PyFunc α)
    (hf : f.cfg = some o) :
    ((∀ v, o.repeats = some v → (effectiveConfig d f).repeats = v) ∧
      (o.repeats = none → (effectiveConfig d f).repeats = d.repeats)) ∧
    ((∀ v, o.number = some v → (effectiveConfig d f).number = v) ∧
      (o.number = none → (effectiveConfig d f).number = d.number)) ∧
    ((∀ v, o.warmups = some v → (effectiveConfig d f).warmups = v) ∧
      (o.warmups = none → (effectiveConfig d f).warmups = d.warmups)) ∧
    ((∀ v, o.garbage_collection = some v → (effectiveConfig d f).garbage_collection = v) ∧
      (o.garbage_collection = none →
        (effectiveConfig d f).garbage_collection = d.garbage_collection)) ∧
    (∀ g : PyFunc α, g.cfg = none → effectiveConfig d g = d) ∧
    (mergeConfig defaultConfig { repeats := some 5 }).repeats = 5 ∧
    (mergeConfig defaultConfig { repeats := some 5 }).number = 1 ∧
    (mergeConfig defaultConfig { repeats := some 5 }).warmups = 0 := by
  simp only [effectiveConfig, hf, mergeConfig]
  exact ⟨⟨fun v hv => by simp [hv], fun hv => by simp [hv]⟩,
    ⟨fun v hv => by simp [hv], fun hv => by simp [hv]⟩,
    ⟨fun v hv => by simp [hv], fun hv => by simp [hv]⟩,
    ⟨fun v hv => by simp [hv], fun hv => by simp [hv]⟩,
    fun g hg => by simp [effectiveConfig, hg], rfl, rfl, rfl⟩

/-- Witness for `effective_config_merge` at a concrete function carrying
the override `{repeat=5}`. -/
theorem effective_config_merge_witness :
    (effectiveConfig defaultConfig
        ({ name := "calc", cfg := some { repeats := some 5 } } : PyFunc Nat)).repeats = 5 :=
  (effective_config_merge defaultConfig { repeats := some 5 }
    { name := "calc", cfg := some { repeats := some 5 } } rfl).1.1 5 rfl

/-- C3: an explicit-form parametrization with k value tuples, each of
arity equal to the name count, expands to exactly k bindings in input
order; any tuple of different arity makes `parametrize` raise at
definition-expansion time (before a decorator is returned, hence before
any benchmark execution or timing), so the expansion yields zero
bindings. -/
theorem parametrize_explicit_arity (ns : List String) (vs : List (List α)) :
    ((∀ v ∈ vs, v.length = ns.length) →
      parametrizeExpand (ArgNames.names ns) (some vs) =
        Except.ok (vs.map fun v => ns.zip v)) ∧
    ((∃ v ∈ vs, v.length ≠ ns.length) →
      ∃ e, parametrizeExpand (ArgNames.names ns) (some vs) = Except.error e) := by
  constructor
  · intro h
    simpa [parametrizeExpand] using buildKwargs_ok h
  · intro h
    simpa [parametrizeExpand] using buildKwargs_error h

/-- Witness for `parametrize_explicit_arity`: two names with two matching
tuples expand to two bindings; a third run with a one-element tuple
raises. -/
theorem parametrize_explicit_arity_witness :
    parametrizeExpand (ArgNames.names ["a", "b"]) (some [[1, 2], [3, 4]]) =
      Except.ok [[("a", 1), ("b", 2)], [("a", 3), ("b", 4)]] ∧
    ∃ e, parametrizeExpand (ArgNames.names ["a", "b"]) (some [[1, 2], [3]]) =
      Except.error e :=
  ⟨(parametrize_explicit_arity ["a", "b"] [[1, 2], [3, 4]]).1 (by decide),
   (parametrize_explicit_arity ["a", "b"] [[1, 2], [3]]).2 ⟨[3], by decide⟩⟩

/-! ## Claim C2: the cartesian product of a mapping-form parametrization -/

theorem pyProduct_length : ∀ ls : List (List α),
    (pyProduct ls).length = (ls.map List.length).prod
  | [] => rfl
  | l :: ls => by
    show (l.flatMap fun x => (pyProduct ls).map fun t => x :: t).length =
      ((l :: ls).map List.length).prod
    simp only [List.length_flatMap, Function.comp_def, List.length_map, List.map_cons,
      List.prod_cons, pyProduct_length ls]
    rw [List.map_const']
    simp [List.sum_replicate, smul_eq_mul]

theorem mem_pyProduct : ∀ {ls : List (List α)} {t : List α},
    t ∈ pyProduct ls ↔ List.Forall₂ (fun x l => x ∈ l) t ls
  | [], t => by
    simp only [pyProduct, List.mem_singleton]
    constructor
    · rintro rfl
      exact List.Forall₂.nil
    · intro h
      cases h
      rfl
  | l :: ls, t => by
    show t ∈ (l.flatMap fun x => (pyProduct ls).map fun u => x :: u) ↔ _
    simp only [List.mem_flatMap, List.mem_map]
    constructor
    · rintro ⟨x, hx, u, hu, rfl⟩
      exact List.Forall₂.cons hx (mem_pyProduct.mp hu)
    · intro h
      cases h with
      | cons hx hu => exact ⟨_, hx, _, ⟨mem_pyProduct.mpr hu, rfl⟩⟩

theorem pyProduct_mem_length {ls : List (List α)} {t : List α} (h : t ∈ pyProduct ls) :
    t.length = ls.length :=
  (mem_pyProduct.mp h).length_eq

theorem pyProduct_nodup : ∀ {ls : List (List α)}, (∀ l ∈ ls, l.Nodup) →
    (pyProduct ls).Nodup
  | [], _ => by simp [pyProduct]
  | l :: ls, h => by
    have hl : l.Nodup := h l (List.mem_cons_self l ls)
    have hP : (pyProduct ls).Nodup :=
      pyProduct_nodup fun u hu => h u (List.mem_cons_of_mem l hu)
    show (l.flatMap fun x => (pyProduct ls).map fun t => x :: t).Nodup
    refine List.nodup_flatMap.mpr ⟨fun x _ => hP.map fun u v huv => by simpa using huv, ?_⟩
    refine hl.imp ?_
    intro x y hxy t ht1 ht2
    rcases List.mem_map.mp ht1 with ⟨u, -, rfl⟩
    rcases List.mem_map.mp ht2 with ⟨v, -, hv⟩
    exact hxy (List.head_eq_of_cons_eq hv.symm)

theorem pyProduct_eq_nestedIter : ∀ ls : List (List α), pyProduct ls = nestedIter ls
  | [] => rfl
  | l :: ls => by
    show (l.flatMap fun x => (pyProduct ls).map fun t => x :: t) =
      l.flatMap fun x => (nestedIter ls).map fun t => x :: t
    rw [pyProduct_eq_nestedIter ls]

theorem zip_right_injective {ns : List String} :
    ∀ {t1 t2 : List α}, t1.length = ns.length → t2.length = ns.length →
      ns.zip t1 = ns.zip t2 → t1 = t2 := by
  induction ns with
  | nil =>
    intro t1 t2 h1 h2 _
    simp only [List.length_nil, List.length_eq_zero] at h1 h2
    rw [h1, h2]
  | cons n ns ih =>
    intro t1 t2 h1 h2 h
    cases t1 with
    | nil => simp at h1
    | cons x t1 =>
      cases t2 with
      | nil => simp at h2
      | cons y t2 =>
        simp only [List.zip_cons_cons, List.cons.injEq, Prod.mk.injEq] at h
        obtain ⟨⟨-, rfl⟩, h3⟩ := h
        rw [ih (by simpa using h1) (by simpa using h2) h3]

theorem zip_names_forall₂ : ∀ {m : List (String × List α)} {t : List α},
    List.Forall₂ (fun x l => x ∈ l) t (m.map Prod.snd) →
    List.Forall₂ (fun nv p => nv.1 = p.1 ∧ nv.2 ∈ p.2) ((m.map Prod.fst).zip t) m
  | [], [], _ => List.Forall₂.nil
  | [], _ :: _, h => nomatch h
  | _ :: _, [], h => nomatch h
  | p :: m, x :: t, h => by
    cases h with
    | cons hx ht =>
      exact List.Forall₂.cons ⟨rfl, hx⟩ (zip_names_forall₂ ht)

/-- C2 counterexample: for the mapping parametrization a: [1, 1] (one
name whose candidate list holds a duplicated value) the expansion
succeeds and yields the two bindings [a=1, a=1], which are equal, so the
bindings are not pairwise distinct as the claim states. -/
theorem parametrize_mapping_duplicate_bindings :
    parametrizeExpand (ArgNames.dict [("a", [1, 1])]) none =
      Except.ok [[("a", 1)], [("a", 1)]] ∧
    ¬ ([[("a", 1)], [("a", 1)]] : List (List (String × Nat))).Nodup :=
  ⟨rfl, by decide⟩

/-- C2 amended: a mapping-form parametrization with value lists of
lengths L1..Ln expands to exactly the product L1 * ... * Ln bindings, in
the order of nested iteration over the lists taken in insertion order,
each binding picking one value from each list in declared name order;
the bindings are pairwise distinct whenever each candidate value list is
duplicate-free (a duplicated candidate value yields repeated equal
bindings). -/
theorem parametrize_mapping_cartesian (m : List (String × List α)) :
    ∃ bs, parametrizeExpand (ArgNames.dict m) none = Except.ok bs ∧
      bs.length = (m.map fun p => p.2.length).prod ∧
      bs = (nestedIter (m.map Prod.snd)).map (fun t => (m.map Prod.fst).zip t) ∧
      ((∀ p ∈ m, p.2.Nodup) → bs.Nodup) ∧
      ∀ b ∈ bs, List.Forall₂ (fun nv p => nv.1 = p.1 ∧ nv.2 ∈ p.2) b m := by
  have hlen : ∀ t ∈ pyProduct (m.map Prod.snd), t.length = (m.map Prod.fst).length := by
    intro t ht
    rw [pyProduct_mem_length ht]
    simp
  refine ⟨(pyProduct (m.map Prod.snd)).map fun t => (m.map Prod.fst).zip t, ?_, ?_, ?_, ?_, ?_⟩
  · simpa [parametrizeExpand] using buildKwargs_ok hlen
  · rw [List.length_map, pyProduct_length, List.map_map]
    rfl
  · rw [pyProduct_eq_nestedIter]
  · intro hnd
    refine List.Nodup.map_on ?_ (pyProduct_nodup ?_)
    · intro t1 ht1 t2 ht2 hz
      exact zip_right_injective (hlen t1 ht1) (hlen t2 ht2) hz
    · intro l hl
      rcases List.mem_map.mp hl with ⟨p, hp, rfl⟩
      exact hnd p hp
  · intro b hb
    rcases List.mem_map.mp hb with ⟨t, ht, rfl⟩
    exact zip_names_forall₂ (mem_pyProduct.mp ht)

/-- Witness for `parametrize_mapping_cartesian` at the mapping
`{a: [1, 2], b: [10, 20, 30]}`: six bindings, pairwise distinct since
both candidate lists are duplicate-free. -/
theorem parametrize_mapping_cartesian_witness :
    ∃ bs, parametrizeExpand (ArgNames.dict [("a", [1, 2]), ("b", [10, 20, 30])]) none =
        Except.ok bs ∧ bs.length = 6 ∧ bs.Nodup :=
  match parametrize_mapping_cartesian [("a", [1, 2]), ("b", [10, 20, 30])] with
  | ⟨bs, hok, hlen, _, hnd, _⟩ => ⟨bs, hok, hlen.trans (by decide), hnd (by decide)⟩

/-- C10: calling `parametrize` with a non-mapping first argument and no
second argument raises a TypeError at the call site, before a decorator
is returned, hence before any benchmark function is modified or
executed. -/
theorem parametrize_missing_argvalues (ns : List String) :
    parametrizeExpand (ArgNames.names ns : ArgNames Nat) none = Except.error "TypeError" :=
  rfl

/-! ## Claim C7: attachment order independence -/

/-- C7: the four attachment decorators `config`, `skipif`, `parametrize`
and `metadata` each wrap the callable with `functools.wraps` (copying all
previously attached attributes) and then set their own, disjoint,
attributes; hence for every permutation of the four, the recorded facts
on the decorated callable (override set, skip flag, parametrization
bindings and setup, tag mapping) are the same.  All twenty-four orders
are enumerated below and compared with the canonical one, which is also
spelled out as an explicit record. -/
theorem attachment_order_independent (r n w : Option Nat) (g : Option Bool) (c : Bool)
    (ps : ParamSpec α) (m : List (String × String)) (f : PyFunc α) :
    (applyConfig r n w g (applySkipif c (applyParametrize ps (applyMetadata m f))) =
      { f with
          cfg := some ⟨r, n, w, g⟩
          skip := some c
          params := some ps
          tags := m
          hasTags := true }) ∧
    (applyConfig r n w g (applySkipif c (applyMetadata m (applyParametrize ps f))) =
      applyConfig r n w g (applySkipif c (applyParametrize ps (applyMetadata m f)))) ∧
    (applyConfig r n w g (applyParametrize ps (applySkipif c (applyMetadata m f))) =
      applyConfig r n w g (applySkipif c (applyParametrize ps (applyMetadata m f)))) ∧
    (applyConfig r n w g (applyParametrize ps (applyMetadata m (applySkipif c f))) =
      applyConfig r n w g (applySkipif c (applyParametrize ps (applyMetadata m f)))) ∧
    (applyConfig r n w g (applyMetadata m (applySkipif c (applyParametrize ps f))) =
      applyConfig r n w g (applySkipif c (applyParametrize ps (applyMetadata m f)))) ∧
    (applyConfig r n w g (applyMetadata m (applyParametrize ps (applySkipif c f))) =
      applyConfig r n w g (applySkipif c (applyParametrize ps (applyMetadata m f)))) ∧
    (applySkipif c (applyConfig r n w g (applyParametrize ps (applyMetadata m f))) =
      applyConfig r n w g (applySkipif c (applyParametrize ps (applyMetadata m f)))) ∧
    (applySkipif c (applyConfig r n w g (applyMetadata m (applyParametrize ps f))) =
      applyConfig r n w g (applySkipif c (applyParametrize ps (applyMetadata m f)))) ∧
    (applySkipif c (applyParametrize ps (applyConfig r n w g (applyMetadata m f))) =
      applyConfig r n w g (applySkipif c (applyParametrize ps (applyMetadata m f)))) ∧
    (applySkipif c (applyParametrize ps (applyMetadata m (applyConfig r n w g f))) =
      applyConfig r n w g (applySkipif c (applyParametrize ps (applyMetadata m f)))) ∧
    (applySkipif c (applyMetadata m (applyConfig r n w g (applyParametrize ps f))) =
      applyConfig r n w g (applySkipif c (applyParametrize ps (applyMetadata m f)))) ∧
    (applySkipif c (applyMetadata m (applyParametrize ps (applyConfig r n w g f))) =
      applyConfig r n w g (applySkipif c (applyParametrize ps (applyMetadata m f)))) ∧
    (applyParametrize ps (applyConfig r n w g (applySkipif c (applyMetadata m f))) =
      applyConfig r n w g (applySkipif c (applyParametrize ps (applyMetadata m f)))) ∧
    (applyParametrize ps (applyConfig r n w g (applyMetadata m (applySkipif c f))) =
      applyConfig r n w g (applySkipif c (applyParametrize ps (applyMetadata m f)))) ∧
    (applyParametrize ps (applySkipif c (applyConfig r n w g (applyMetadata m f))) =
      applyConfig r n w g (applySkipif c (applyParametrize ps (applyMetadata m f)))) ∧
    (applyParametrize ps (applySkipif c (applyMetadata m (applyConfig r n w g f))) =
      applyConfig r n w g (applySkipif c (applyParametrize ps (applyMetadata m f)))) ∧
    (applyParametrize ps (applyMetadata m (applyConfig r n w g (applySkipif c f))) =
      applyConfig r n w g (applySkipif c (applyParametrize ps (applyMetadata m f)))) ∧
    (applyParametrize ps (applyMetadata m (applySkipif c (applyConfig r n w g f))) =
      applyConfig r n w g (applySkipif c (applyParametrize ps (applyMetadata m f)))) ∧
    (applyMetadata m (applyConfig r n w g (applySkipif c (applyParametrize ps f))) =
      applyConfig r n w g (applySkipif c (applyParametrize ps (applyMetadata m f)))) ∧
    (applyMetadata m (applyConfig r n w g (applyParametrize ps (applySkipif c f))) =
      applyConfig r n w g (applySkipif c (applyParametrize ps (applyMetadata m f)))) ∧
    (applyMetadata m (applySkipif c (applyConfig r n w g (applyParametrize ps f))) =
      applyConfig r n w g (applySkipif c (applyParametrize ps (applyMetadata m f)))) ∧
    (applyMetadata m (applySkipif c (applyParametrize ps (applyConfig r n w g f))) =
      applyConfig r n w g (applySkipif c (applyParametrize ps (applyMetadata m f)))) ∧
    (applyMetadata m (applyParametrize ps (applyConfig r n w g (applySkipif c f))) =
      applyConfig r n w g (applySkipif c (applyParametrize ps (applyMetadata m f)))) ∧
    (applyMetadata m (applyParametrize ps (applySkipif c (applyConfig r n w g f))) =
      applyConfig r n w g (applySkipif c (applyParametrize ps (applyMetadata m f)))) :=
  ⟨rfl, rfl, rfl, rfl, rfl, rfl, rfl, rfl, rfl, rfl, rfl, rfl,
   rfl, rfl, rfl, rfl, rfl, rfl, rfl, rfl, rfl, rfl, rfl, rfl⟩

/-! ## Lemmas about the execution loop -/

theorem runFunc_some {default : Config} {f : PyFunc α} {o : FuncRunOutput α}
    (h : runFunc default f = some o) :
    f.skip ≠ some true ∧ o.funcName = f.name ∧
      ∀ fr ∈ o.frames,
        fr.function = f.name ∧ fr.sampleCount = (effectiveConfig default f).repeats := by
  by_cases hs : f.skip = some true
  · simp [runFunc, hs] at h
  · refine ⟨hs, ?_, ?_⟩
    · simp only [runFunc, hs, if_false] at h
      cases h
      rfl
    · simp only [runFunc, hs, if_false] at h
      cases h
      intro fr hfr
      rcases List.mem_map.mp hfr with ⟨v, -, rfl⟩
      exact ⟨rfl, rfl⟩

theorem sessionFrames_mem {default : Config} {kw : Option (String → Bool)}
    {funcs : List (PyFunc α)} {fr : TimingFrame α}
    (h : fr ∈ sessionFrames default kw funcs) :
    ∃ fu ∈ funcs, fu.skip ≠ some true ∧ fr.function = fu.name ∧
      fr.sampleCount = (effectiveConfig default fu).repeats := by
  rcases List.mem_flatMap.mp h with ⟨o, ho, hfo⟩
  rcases List.mem_filterMap.mp ho with ⟨fu, hfu, hrun⟩
  rcases runFunc_some hrun with ⟨hskip, -, hframes⟩
  exact ⟨fu, (List.mem_filter.mp hfu).1, hskip, (hframes fr hfo).1, (hframes fr hfo).2⟩

theorem leftJoinM1_ok_fst [DecidableEq κ] {left : List (κ × β)} {right : List (κ × γ)}
    {out : List (κ × β × Option γ)} (h : leftJoinM1 left right = Except.ok out) :
    out.map Prod.fst = left.map Prod.fst := by
  unfold leftJoinM1 at h
  split at h
  · cases h
    simp [List.map_map, Function.comp_def]
  · cases h

/-- Every aggregated row of a successful run carries the identity of a
selected, non-skipped benchmark function. -/
theorem runSession_ok_row_function [DecidableEq α] {default : Config}
    {kw : Option (String → Bool)} {funcs : List (PyFunc α)} {rows : List (AggRow α)}
    (h : runSession default kw funcs = Except.ok rows) :
    ∀ row ∈ rows, ∃ fu ∈ funcs, fu.skip ≠ some true ∧ row.1 = fu.name := by
  intro row hrow
  unfold runSession at h
  split at h
  · cases h
  · rcases hj1 : leftJoinM1 (sessionKeys default kw funcs)
        (sessionConfigTable default kw funcs) with e | t1
    · rw [hj1] at h
      cases h
    · rw [hj1] at h
      dsimp only at h
      rcases hj2 : leftJoinM1 (t1.map fun r => (r.1, r.2))
          (sessionTagTable default kw funcs) with e | t2
      · rw [hj2] at h
        cases h
      · rw [hj2] at h
        dsimp only at h
        cases h
        rcases List.mem_map.mp hrow with ⟨r2, hr2, rfl⟩
        have h2 : r2.1 ∈ t2.map Prod.fst := List.mem_map.mpr ⟨r2, hr2, rfl⟩
        rw [leftJoinM1_ok_fst hj2] at h2
        have h1 : r2.1 ∈ t1.map Prod.fst := by
          simpa [List.map_map, Function.comp_def] using h2
        rw [leftJoinM1_ok_fst hj1] at h1
        rcases List.mem_map.mp h1 with ⟨k, hk, hkeq⟩
        unfold sessionKeys at hk
        rcases List.mem_map.mp (List.mem_dedup.mp hk) with ⟨fr, hfr, rfl⟩
        rcases sessionFrames_mem hfr with ⟨fu, hfu, hskip, hfn, -⟩
        refine ⟨fu, hfu, hskip, ?_⟩
        rw [← hkeq]
        exact hfn

/-! ## Claims C5, C6, C9 -/

/-- C5: a benchmark function whose skipif condition is true is skipped by
`Bench.run` before anything is recorded: it contributes no timing frame
and no raw sample, whatever parametrization it carries and in whatever
order the decorators were attached (the skipif attachment survives a
later parametrize attachment and vice versa), and a run in which every
function with its name is skipped contains no aggregated record for that
name. -/
theorem skipif_true_zero_samples [DecidableEq α] (default : Config) (f g : PyFunc α)
    (ps : ParamSpec α) (h : f.skip = some true) :
    runFunc default f = none ∧
    runFunc default (applyParametrize ps f) = none ∧
    runFunc default (applyParametrize ps (applySkipif true g)) = none ∧
    runFunc default (applySkipif true (applyParametrize ps g)) = none ∧
    (∀ (kw : Option (String → Bool)) (funcs : List (PyFunc α)) (rows : List (AggRow α)),
      runSession default kw funcs = Except.ok rows →
      (∀ fu ∈ funcs, fu.name = f.name → fu.skip = some true) →
      ∀ row ∈ rows, row.1 ≠ f.name) := by
  refine ⟨by simp [runFunc, h], by simp [runFunc, applyParametrize, h],
    by simp [runFunc, applyParametrize, applySkipif],
    by simp [runFunc, applyParametrize, applySkipif], ?_⟩
  intro kw funcs rows hrun hall row hrow heq
  rcases runSession_ok_row_function hrun row hrow with ⟨fu, hfu, hskip, hname⟩
  exact hskip (hall fu hfu (by rw [← hname, heq]))

/-- Witness for `skipif_true_zero_samples`: a concrete parametrized
function with a true skip flag produces no output at all. -/
theorem skipif_true_zero_samples_witness :
    runFunc defaultConfig
      ({ name := "slow"
         skip := some true
         params := some ⟨[[("a", 1)]], none⟩ } : PyFunc Nat) = none :=
  (skipif_true_zero_samples defaultConfig
    { name := "slow", skip := some true, params := some ⟨[[("a", 1)]], none⟩ }
    { name := "other" } ⟨[[("a", 1)]], none⟩ rfl).1

/-- C6: for a parametrized benchmark with a setup transform, each
expanded variant binds the callable to the setup-transformed binding
while the `_params` attribute recorded with the variant (and hence the
parameter signature serialized into its timing frame) is the raw,
pre-transform binding. -/
theorem setup_transform_raw_signature (default : Config)
    (ps : List (List (String × α))) (s : List (String × α) → List (String × α))
    (f : PyFunc α) (hp : f.params = some ⟨ps, some s⟩) :
    (variants f).map Variant.callArgs = ps.map s ∧
    (variants f).map Variant.recorded = ps.map some ∧
    ∀ o, runFunc default f = some o →
      o.frames.map TimingFrame.parameters = ps.map some := by
  refine ⟨by simp [variants, hp], by simp [variants, hp], ?_⟩
  intro o ho
  by_cases hs : f.skip = some true
  · simp [runFunc, hs] at ho
  · simp only [runFunc, hs, if_false] at ho
    cases ho
    simp [variants, hp, List.map_map, Function.comp_def]

/-- Witness for `setup_transform_raw_signature`: two raw cases, a setup
that prepends a derived value; the call arguments are transformed, the
recorded signatures are the raw cases. -/
theorem setup_transform_raw_signature_witness :
    (variants ({ name := "f"
                 params := some ⟨[[("a", 1)], [("a", 2)]], some fun b => ("n", 10) :: b⟩ } :
          PyFunc Nat)).map Variant.callArgs =
      [[("a", 1)], [("a", 2)]].map (fun b => ("n", 10) :: b) ∧
    (variants ({ name := "f"
                 params := some ⟨[[("a", 1)], [("a", 2)]], some fun b => ("n", 10) :: b⟩ } :
          PyFunc Nat)).map Variant.recorded =
      [[("a", 1)], [("a", 2)]].map some :=
  ⟨(setup_transform_raw_signature defaultConfig [[("a", 1)], [("a", 2)]]
      (fun b => ("n", 10) :: b) _ rfl).1,
   (setup_transform_raw_signature defaultConfig [[("a", 1)], [("a", 2)]]
      (fun b => ("n", 10) :: b) _ rfl).2.1⟩

/-- C9: when, after keyword filtering and skip flags, no benchmark
produced any timing sample (with every effective repeat count positive,
as the configuration data model requires), `Bench.run` raises the
explicit `SystemExit("No benchmarks ran")` signal; the error return means
no aggregation result exists and nothing can be persisted. -/
theorem nothing_ran_fatal [DecidableEq α] (default : Config) (kw : Option (String → Bool))
    (funcs : List (PyFunc α))
    (hpos : ∀ f ∈ funcs, 0 < (effectiveConfig default f).repeats)
    (h0 : sessionSampleTotal default kw funcs = 0) :
    runSession default kw funcs = Except.error "No benchmarks ran" := by
  have hempty : (sessionFrames default kw funcs).isEmpty := by
    rcases hfr : sessionFrames default kw funcs with - | ⟨fr, rest⟩
    · rfl
    · exfalso
      have hmem : fr ∈ sessionFrames default kw funcs := by
        rw [hfr]
        exact List.mem_cons_self fr rest
      rcases sessionFrames_mem hmem with ⟨fu, hfu, -, -, hcount⟩
      have : fr.sampleCount = 0 := by
        have hsum := h0
        unfold sessionSampleTotal at hsum
        rw [hfr] at hsum
        simp only [List.map_cons, List.sum_cons] at hsum
        omega
      rw [hcount] at this
      exact absurd this (Nat.pos_iff_ne_zero.mp (hpos fu hfu))
  simp [runSession, hempty]

/-- Witness for `nothing_ran_fatal`: a session whose only function is
skipped raises the nothing-ran signal. -/
theorem nothing_ran_fatal_witness :
    runSession defaultConfig none
      [({ name := "slow", skip := some true } : PyFunc Nat)] =
      Except.error "No benchmarks ran" :=
  nothing_ran_fatal defaultConfig none [{ name := "slow", skip := some true }]
    (by intro f hf; rcases List.mem_singleton.mp hf with rfl; decide) rfl

/-! ## Claim C4: the aggregation joins -/

theorem alookup_eq_none [DecidableEq κ] {k : κ} :
    ∀ {l : List (κ × β)}, k ∉ l.map Prod.fst → alookup k l = none
  | [], _ => rfl
  | (k2, v) :: r, h => by
    simp only [List.map_cons, List.mem_cons] at h
    push_neg at h
    have hne : ¬ k2 = k := fun he => h.1 he.symm
    simp only [alookup, if_neg hne]
    exact alookup_eq_none h.2

/-- C4 counterexample: the grouped timing table contains the function
identity "f" but the config table is empty; the m:1-validated left join
of `Bench.run` does not fail — it succeeds and silently fills the missing
configuration columns with a null (`none`). -/
theorem join_missing_identity_not_loud :
    leftJoinM1 [("f", (0 : Nat))] ([] : List (String × Config)) =
      Except.ok [("f", 0, (none : Option Config))] := by
  simp [leftJoinM1, alookup]

/-- C4 amended: the two aggregation joins validate the many-to-one
cardinality — they fail loudly when a function identity occurs more than
once in the configuration or tag table — but a function identity present
in the timing table and absent from a joined table is not detected: the
left join silently coerces it into null (`none`) columns. -/
theorem join_m1_validation [DecidableEq κ] (left : List (κ × β)) (right : List (κ × γ)) :
    ((right.map Prod.fst).Nodup →
      leftJoinM1 left right =
        Except.ok (left.map fun kv => (kv.1, kv.2, alookup kv.1 right))) ∧
    (¬ (right.map Prod.fst).Nodup →
      leftJoinM1 left right = Except.error "join keys did not fulfill m:1 validation") ∧
    (∀ k b, (k, b) ∈ left → k ∉ right.map Prod.fst → (right.map Prod.fst).Nodup →
      ∀ out, leftJoinM1 left right = Except.ok out → (k, b, (none : Option γ)) ∈ out) := by
  refine ⟨fun h => by simp [leftJoinM1, h], fun h => by simp [leftJoinM1, h], ?_⟩
  intro k b hmem habs hnd out hout
  simp only [leftJoinM1, if_pos hnd, Except.ok.injEq] at hout
  subst hout
  exact List.mem_map.mpr ⟨(k, b), hmem, by simp [alookup_eq_none habs]⟩

/-- Witness for `join_m1_validation`: a two-row timing key table joined
against a one-row config table succeeds with a null for the missing
identity, and a config table with a duplicated identity is rejected. -/
theorem join_m1_validation_witness :
    leftJoinM1 [("f", (1 : Nat)), ("g", 2)] [("f", (10 : Nat))] =
      Except.ok [("f", 1, alookup "f" [("f", 10)]), ("g", 2, alookup "g" [("f", 10)])] ∧
    leftJoinM1 [("f", (1 : Nat))] [("f", (10 : Nat)), ("f", 11)] =
      Except.error "join keys did not fulfill m:1 validation" ∧
    ("g", 2, (none : Option Nat)) ∈
      [("f", (1 : Nat), alookup "f" [("f", (10 : Nat))]), ("g", 2, alookup "g" [("f", 10)])] :=
  ⟨(join_m1_validation [("f", 1), ("g", 2)] [("f", 10)]).1 (by decide),
   (join_m1_validation [("f", 1)] [("f", 10), ("f", 11)]).2.1 (by decide),
   (join_m1_validation [("f", 1), ("g", 2)] [("f", 10)]).2.2 "g" 2 (by decide) (by decide)
     (by decide) _
     ((join_m1_validation [("f", 1), ("g", 2)] [("f", 10)]).1 (by decide))⟩

/-! ## Claim C8: result persistence -/

theorem readFile_writeFile_self (p : List String) (t : τ) (fs : FS τ) :
    readFile p (writeFile p t fs) = some t := by
  simp [readFile, writeFile, alookup]

theorem readFile_writeFile_ne {p q : List String} (t : τ) (fs : FS τ) (h : p ≠ q) :
    readFile q (writeFile p t fs) = readFile q fs := by
  simp [readFile, writeFile, alookup, h]

theorem mem_pathPrefixes : ∀ {q p : List String}, p <+: q → p ∈ pathPrefixes q
  | q, [], _ => by
    cases q <;> simp [pathPrefixes]
  | [], x :: p, h => absurd h (by simp)
  | s :: q, x :: p, h => by
    rcases (List.cons_prefix_cons.mp h) with ⟨rfl, h2⟩
    exact List.mem_cons_of_mem _ (List.mem_map.mpr ⟨p, mem_pathPrefixes h2, rfl⟩)

/-- C8: `save_results` writes the aggregated table under the historical
directory, inside nested directories named key=value for each configured
partition key in order (values resolved against the run metadata),
creating every missing directory on that path, and then overwrites the
single unpartitioned latest copy, whose content equals the partitioned
copy just written. -/
theorem save_results_layout (cfg : Config) (md : String → String) (benchdir : List String)
    (results : τ) (fs : FS τ) :
    readFile ((benchdir ++ ["historical"] ++ cfg.partition_by.map fun k => k ++ "=" ++ md k) ++
        ["results.parquet"]) (save_results cfg md benchdir results fs) = some results ∧
    readFile (benchdir ++ ["results.parquet"]) (save_results cfg md benchdir results fs) =
      some results ∧
    ∀ p, p <+: (benchdir ++ ["historical"] ++ cfg.partition_by.map fun k => k ++ "=" ++ md k) →
      p ∈ (save_results cfg md benchdir results fs).dirs := by
  have hne : benchdir ++ ["results.parquet"] ≠
      (benchdir ++ ["historical"] ++ cfg.partition_by.map fun k => k ++ "=" ++ md k) ++
        ["results.parquet"] := by
    intro he
    have hlen := congrArg List.length he
    simp only [List.length_append, List.length_cons, List.length_nil, List.length_map] at hlen
    omega
  simp only [save_results, readFile_writeFile_self]
  refine ⟨?_, ?_, ?_⟩
  · rw [readFile_writeFile_ne _ _ hne]
    exact readFile_writeFile_self _ _ _
  · trivial
  · intro p hp
    exact List.mem_append_left _ (mem_pathPrefixes hp)

/-- Witness for `save_results_layout`: with the default partition key
`commit` resolved to "abc123", the table lands in
historical/commit=abc123/results.parquet, the latest copy has the same
content, and the historical directory chain exists. -/
theorem save_results_layout_witness :
    readFile ["benchmarks", "results", "historical", "commit=abc123", "results.parquet"]
      (save_results defaultConfig (fun _ => "abc123") ["benchmarks", "results"] (7 : Nat)
        ⟨[], []⟩) = some 7 ∧
    readFile ["benchmarks", "results", "results.parquet"]
      (save_results defaultConfig (fun _ => "abc123") ["benchmarks", "results"] (7 : Nat)
        ⟨[], []⟩) = some 7 ∧
    ["benchmarks", "results", "historical"] ∈
      (save_results defaultConfig (fun _ => "abc123") ["benchmarks", "results"] (7 : Nat)
        ⟨[], []⟩).dirs :=
  ⟨(save_results_layout defaultConfig (fun _ => "abc123") ["benchmarks", "results"] 7
      ⟨[], []⟩).1,
   (save_results_layout defaultConfig (fun _ => "abc123") ["benchmarks", "results"] 7
      ⟨[], []⟩).2.1,
   (save_results_layout defaultConfig (fun _ => "abc123") ["benchmarks", "results"] 7
      ⟨[], []⟩).2.2 ["benchmarks", "results", "historical"] (by decide)⟩

end Pybench
